import Mathlib

/-!
# Investment-tracking platform: accrual, settlement, creation, referrals

A shallow embedding of the investment core of the repository.  Monetary
amounts and millisecond timestamps are modelled as exact rationals (the
source uses JavaScript numbers); store and ledger calls are modelled as an
ordered list of explicit effects.

The repository carries three variants of the `InvestmentContext` module:
* variant 1 (Supabase-backed, `part_000` lines 1–248),
* variant 2 (localStorage, with a `credited` status, lines 250–416),
* variant 3 (localStorage, `completed` only, lines 418–575).
Each is embedded separately where its logic differs.
-/

namespace InvestTrack

/-- `Referral` record, from `src/types/auth.ts` (`name` is optional there). -/
structure Referral where
  id : String
  name : Option String
  commission : ℚ
deriving DecidableEq

/-- `User` record, from `src/types/auth.ts`.  `referrals`, `referralBonus` and
`referredBy` are optional in the source type, hence `Option` here. -/
structure User where
  id : String
  name : String
  email : String
  role : String
  balance : ℚ
  createdAt : String
  referrals : Option (List Referral)
  referralBonus : Option ℚ
  referredBy : Option String
deriving DecidableEq

/-- `Investment` record, from the `InvestmentContext` variants.  `startDate`
and `endDate` are ISO strings in the source, compared and subtracted through
`Date.getTime()`; we model them directly by their millisecond value. -/
structure Investment where
  id : String
  userId : String
  planId : String
  amount : ℚ
  returnAmount : ℚ
  duration : ℚ
  startDate : ℚ
  endDate : ℚ
  dailyReturn : ℚ
  status : String
  currentValue : ℚ
deriving DecidableEq

/-- The externally visible calls an operation issues, in program order:
`creditBalance u d` is `updateUserBalance(u, d)` (a debit when `d < 0`);
`insertInvestment` is the store insert / local append of a new record;
`updateStatusValue` and `updateValue` are the Supabase
`update(...).eq('id', id)` calls — note they match on `id` only, carrying no
condition on the stored status. -/
inductive Effect where
  | creditBalance (userId : String) (delta : ℚ)
  | insertInvestment (inv : Investment)
  | updateStatusValue (invId : String) (status : String) (currentValue : ℚ)
  | updateValue (invId : String) (currentValue : ℚ)
deriving DecidableEq

/-- The balance credits among a list of effects. -/
def credits : List Effect → List (String × ℚ)
  | [] => []
  | Effect.creditBalance u d :: es => (u, d) :: credits es
  | _ :: es => credits es

/-- One investment's step of `calculateInvestmentGrowth`, variant 1
(Supabase, `part_000` lines 104–148).  `user` is the ambient authenticated
user id (`useAuth`); the source guards the whole pass with `if (!user)
return`, so this step only runs with `user ≠ none` there.  The balance is
credited only when the ambient user owns the investment (line 113), the
status is set to `completed` and persisted unconditionally by id. -/
def calculateInvestmentGrowthStep (user : Option String) (now : ℚ)
    (inv : Investment) : Investment × List Effect :=
  if inv.status = "active" then
    if inv.endDate ≤ now ∧ inv.status = "active" then
      let creditEffs : List Effect :=
        match user with
        | some uid =>
            if inv.userId = uid then [Effect.creditBalance uid inv.returnAmount]
            else []
        | none => []
      ({ inv with status := "completed", currentValue := inv.returnAmount },
        creditEffs ++ [Effect.updateStatusValue inv.id "completed" inv.returnAmount])
    else
      let elapsedDays := (now - inv.startDate) / 86400000
      let currentValue :=
        min (inv.amount + elapsedDays * inv.dailyReturn) inv.returnAmount
      ({ inv with currentValue := currentValue },
        [Effect.updateValue inv.id currentValue])
  else (inv, [])

/-- One investment's step of `calculateInvestmentGrowth`, variant 3
(localStorage, `part_000` lines 477–505): same per-investment logic as
variant 1 but with no store calls.  Variant 3's pass has no `user` guard, so
this step does run with `user = none`. -/
def calculateInvestmentGrowthStepLocal (user : Option String) (now : ℚ)
    (inv : Investment) : Investment × List Effect :=
  if inv.status = "active" then
    if inv.endDate ≤ now ∧ inv.status = "active" then
      let creditEffs : List Effect :=
        match user with
        | some uid =>
            if inv.userId = uid then [Effect.creditBalance uid inv.returnAmount]
            else []
        | none => []
      ({ inv with status := "completed", currentValue := inv.returnAmount },
        creditEffs)
    else
      let elapsedDays := (now - inv.startDate) / 86400000
      let currentValue :=
        min (inv.amount + elapsedDays * inv.dailyReturn) inv.returnAmount
      ({ inv with currentValue := currentValue }, [])
  else (inv, [])

/-- One investment's step of `calculateInvestmentGrowth`, variant 2
(localStorage with `credited` status, `part_000` lines 309–346).  At
maturity the owner is credited on both branches of the user test (lines
320–327), and the inner `status !== "credited"` test sits inside the
`status === "active"` branch, so its else arm (line 330) is dead code;
it is translated nonetheless. -/
def calculateInvestmentGrowthStepCredited (user : Option String) (now : ℚ)
    (inv : Investment) : Investment × List Effect :=
  if inv.status = "active" then
    if inv.endDate ≤ now then
      if inv.status ≠ "credited" then
        let eff : Effect :=
          match user with
          | some uid =>
              if inv.userId = uid then Effect.creditBalance uid inv.returnAmount
              else Effect.creditBalance inv.userId inv.returnAmount
          | none => Effect.creditBalance inv.userId inv.returnAmount
        ({ inv with status := "credited", currentValue := inv.returnAmount },
          [eff])
      else
        ({ inv with status := "completed", currentValue := inv.returnAmount },
          [])
    else
      let elapsedDays := (now - inv.startDate) / 86400000
      let currentValue :=
        min (inv.amount + elapsedDays * inv.dailyReturn) inv.returnAmount
      ({ inv with currentValue := currentValue }, [])
  else (inv, [])

/-- A sequence of variant-3 accrual passes applied to one investment, each
pass with its ambient user and its wall-clock time, accumulating the emitted
effects in order. -/
def runPassesLocal : Investment → List (Option String × ℚ) →
    Investment × List Effect
  | inv, [] => (inv, [])
  | inv, p :: ps =>
      let step := calculateInvestmentGrowthStepLocal p.1 p.2 inv
      let rest := runPassesLocal step.1 ps
      (rest.1, step.2 ++ rest.2)

/-- The record built by every `createInvestment` variant (`part_000` lines
165–190, 360–381, 519–540): `returnAmount` is double the amount (line 166),
`dailyReturn = returnAmount / duration` (line 167), status `active`,
`currentValue` starting at the invested amount. -/
def newInvestmentRecord (u : User) (planId : String) (amount duration : ℚ)
    (nowMs : ℚ) (newId : String) : Investment :=
  let returnAmount := amount * 2
  let dailyReturn := returnAmount / duration
  { id := newId, userId := u.id, planId := planId, amount := amount
    returnAmount := returnAmount, duration := duration
    startDate := nowMs, endDate := nowMs + duration * 86400000
    dailyReturn := dailyReturn, status := "active"
    currentValue := amount }

/-- `createInvestment`, variant 1 (Supabase, `part_000` lines 156–226).
Returns the effects issued in program order together with the result.  The
source inserts the row first (lines 175–190) and only then debits the
balance (line 201).  `endDate.setDate(getDate() + duration)` adds `duration`
calendar days; we model it as `duration` exact days in milliseconds. -/
def createInvestment (user : Option User) (planId : String)
    (amount duration : ℚ) (nowMs : ℚ) (newId : String) :
    List Effect × Except String Investment :=
  match user with
  | none => ([], Except.error "You must be logged in")
  | some u =>
    if u.balance < amount then ([], Except.error "Insufficient balance")
    else
      let inv := newInvestmentRecord u planId amount duration nowMs newId
      ([Effect.insertInvestment inv, Effect.creditBalance u.id (-amount)],
        Except.ok inv)

/-- `createInvestment`, variants 2 and 3 (localStorage, `part_000` lines
351–394 and 510–553): identical validation and fields, but the debit
(line 384/543) is issued before the record is appended (line 386/545). -/
def createInvestmentLocal (user : Option User) (planId : String)
    (amount duration : ℚ) (nowMs : ℚ) (newId : String) :
    List Effect × Except String Investment :=
  match user with
  | none => ([], Except.error "You must be logged in")
  | some u =>
    if u.balance < amount then ([], Except.error "Insufficient balance")
    else
      let inv := newInvestmentRecord u planId amount duration nowMs newId
      ([Effect.creditBalance u.id (-amount), Effect.insertInvestment inv],
        Except.ok inv)

/-- `addReferralCommission` from `src/services/referralService.ts` (the copy
in `AuthContext.tsx` lines 116–173 applies the same update to the users
list).  `referrals || []` and `referralBonus || 0` become `getD`. -/
def addReferralCommission (users : List User) (referrerId : String)
    (amount : ℚ) (userId : String) : Except String (List User) :=
  match users.find? (fun u => u.id == referrerId) with
  | none => Except.error "Referrer not found"
  | some referrer =>
    match users.find? (fun u => u.id == userId) with
    | none => Except.error "User not found"
    | some newUser =>
      let commission := amount * (2 / 10)
      let updatedReferrals :=
        referrer.referrals.getD [] ++
          [{ id := userId, name := some newUser.name,
             commission := commission : Referral }]
      let updatedReferralBonus := referrer.referralBonus.getD 0 + commission
      Except.ok (users.map fun u =>
        if u.id == referrerId then
          { u with referrals := some updatedReferrals
                   referralBonus := some updatedReferralBonus
                   balance := u.balance + commission }
        else u)

/-- Is this effect a balance debit (a negative-delta `updateUserBalance`)? -/
def Effect.isDebit : Effect → Bool
  | Effect.creditBalance _ d => decide (d < 0)
  | _ => false

/-- Is this effect a store insert of an investment record? -/
def Effect.isInsertion : Effect → Bool
  | Effect.insertInvestment _ => true
  | _ => false

/-- Rendering of the spec sentence "issues the debit *before* persisting the
record": a debit effect occurs, an insert effect occurs, and the first debit
comes strictly before the first insert. -/
def debitBeforeInsert (effs : List Effect) : Bool :=
  match effs.findIdx? Effect.isDebit, effs.findIdx? Effect.isInsertion with
  | some i, some j => decide (i < j)
  | _, _ => false

/-- A user with ample funds, for concrete evaluations. -/
def richUser : User :=
  { id := "u1", name := "User One", email := "u1@example.com", role := "user"
    balance := 1000, createdAt := "2024-01-01"
    referrals := some [], referralBonus := some 0, referredBy := none }

/-- The investment `createInvestment` builds for `richUser` with
`principal = 100`, `durationDays = 10`, starting at epoch millisecond 0,
with its derived fields written out (`200 = 100 * 2`,
`20 = 200 / 10`, `864000000 = 10 * 86400000`). -/
def sampleInvestment : Investment :=
  { id := "inv-1", userId := "u1", planId := "plan-1", amount := 100
    returnAmount := 200, duration := 10, startDate := 0, endDate := 864000000
    dailyReturn := 20, status := "active", currentValue := 100 }

/-- A settled copy of `sampleInvestment`, as left behind by a maturity pass
of variants 1/3. -/
def settledInvestment : Investment :=
  { sampleInvestment with status := "completed", currentValue := 200 }

/-- First of the two demo accounts seeded in `AuthContext.tsx` (`mockUsers`,
lines 37–58). -/
def mockAdmin : User :=
  { id := "1", name := "Admin User", email := "admin@example.com"
    role := "admin", balance := 10000, createdAt := "2024-01-01"
    referrals := some [], referralBonus := some 0, referredBy := none }

/-- Second of the two demo accounts seeded in `AuthContext.tsx`. -/
def mockTestUser : User :=
  { id := "2", name := "Test User", email := "user@example.com"
    role := "user", balance := 1000, createdAt := "2024-01-01"
    referrals := some [], referralBonus := some 0, referredBy := none }

lemma newInvestmentRecord_sample :
    newInvestmentRecord richUser "plan-1" 100 10 0 "inv-1" = sampleInvestment := by
  norm_num [newInvestmentRecord, richUser, sampleInvestment]

lemma richUser_not_poor : ¬ richUser.balance < 100 := by decide

/-- C2 counterexample: for `principal = 100`, `durationDays = 10` the claim
predicts `dailyAccrual = (guaranteedPayout − principal) / durationDays =
(200 − 100) / 10 = 10`; the code stores `dailyReturn = returnAmount /
duration = 20` (`part_000` line 167/361). -/
theorem createInvestment_dailyReturn_counterexample :
    (createInvestment (some richUser) "plan-1" 100 10 0 "inv-1").2 =
      Except.ok sampleInvestment ∧
    sampleInvestment.dailyReturn ≠
      (sampleInvestment.returnAmount - sampleInvestment.amount) /
        sampleInvestment.duration := by
  constructor
  · simp [createInvestment, richUser_not_poor, newInvestmentRecord_sample]
  · norm_num [sampleInvestment]

/-- C2 (amended): `createInvestment` with principal `p` and duration `d`
yields `guaranteedPayout = 2 p` but stored rate
`dailyAccrual = guaranteedPayout / d = 2 p / d` (not `(2 p − p) / d = p/d`);
so for `p = 100`, `d = 10` the investment has payout `200` and rate `20`.
Both creation variants build the same record. -/
theorem createInvestment_payout_and_rate (u : User) (planId : String)
    (amount duration nowMs : ℚ) (newId : String) (h : ¬ u.balance < amount) :
    (createInvestment (some u) planId amount duration nowMs newId).2 =
      Except.ok (newInvestmentRecord u planId amount duration nowMs newId) ∧
    (createInvestmentLocal (some u) planId amount duration nowMs newId).2 =
      Except.ok (newInvestmentRecord u planId amount duration nowMs newId) ∧
    (newInvestmentRecord u planId amount duration nowMs newId).returnAmount =
      amount * 2 ∧
    (newInvestmentRecord u planId amount duration nowMs newId).dailyReturn =
      amount * 2 / duration := by
  refine ⟨?_, ?_, rfl, rfl⟩ <;> simp [createInvestment, createInvestmentLocal, h]

/-- C2 witness: the amended statement at `p = 100`, `d = 10` gives payout
`200` and daily rate `20`. -/
theorem createInvestment_payout_and_rate_witness :
    (createInvestment (some richUser) "plan-1" 100 10 0 "inv-1").2 =
      Except.ok sampleInvestment ∧
    sampleInvestment.returnAmount = 200 ∧ sampleInvestment.dailyReturn = 20 := by
  have h := createInvestment_payout_and_rate richUser "plan-1" 100 10 0 "inv-1"
    richUser_not_poor
  exact ⟨by rw [h.1, newInvestmentRecord_sample], rfl, rfl⟩

/-- C4 counterexample: in the Supabase variant the successful creation's
effect sequence is `[insert, debit]`, so the debit is *not* issued before
the record is persisted (`part_000`: insert at lines 175–190, debit at
line 201). -/
theorem createInvestment_insert_precedes_debit :
    debitBeforeInsert
      (createInvestment (some richUser) "plan-1" 100 10 0 "inv-1").1 = false := by
  decide

/-- C4 (amended): on success the Supabase variant persists the `active`
investment with `currentValue = principal` first and debits afterwards,
while the localStorage variants debit first and then append the record;
each variant issues exactly these two effects. -/
theorem createInvestment_effect_order (u : User) (planId : String)
    (amount duration nowMs : ℚ) (newId : String) (h : ¬ u.balance < amount) :
    (createInvestment (some u) planId amount duration nowMs newId).1 =
      [Effect.insertInvestment (newInvestmentRecord u planId amount duration nowMs newId),
       Effect.creditBalance u.id (-amount)] ∧
    (createInvestmentLocal (some u) planId amount duration nowMs newId).1 =
      [Effect.creditBalance u.id (-amount),
       Effect.insertInvestment (newInvestmentRecord u planId amount duration nowMs newId)] ∧
    (newInvestmentRecord u planId amount duration nowMs newId).status = "active" ∧
    (newInvestmentRecord u planId amount duration nowMs newId).currentValue = amount := by
  refine ⟨?_, ?_, rfl, rfl⟩ <;>
    simp [createInvestment, createInvestmentLocal, h]

/-- C4 witness: the amended effect order at a concrete successful creation. -/
theorem createInvestment_effect_order_witness :
    (createInvestment (some richUser) "plan-1" 100 10 0 "inv-1").1 =
      [Effect.insertInvestment sampleInvestment,
       Effect.creditBalance "u1" (-100)] ∧
    (createInvestmentLocal (some richUser) "plan-1" 100 10 0 "inv-1").1 =
      [Effect.creditBalance "u1" (-100),
       Effect.insertInvestment sampleInvestment] ∧
    sampleInvestment.status = "active" ∧
    sampleInvestment.currentValue = 100 := by
  have h := createInvestment_effect_order richUser "plan-1" 100 10 0 "inv-1"
    richUser_not_poor
  rw [newInvestmentRecord_sample] at h
  exact h

/-- C5: with a requested principal strictly above the user's balance, both
creation variants fail with the insufficient-funds error and issue no
effect at all — no debit, no insert (`part_000` lines 161–163, 356–358). -/
theorem createInvestment_insufficient_funds (u : User) (planId : String)
    (amount duration nowMs : ℚ) (newId : String) (h : u.balance < amount) :
    createInvestment (some u) planId amount duration nowMs newId =
      ([], Except.error "Insufficient balance") ∧
    createInvestmentLocal (some u) planId amount duration nowMs newId =
      ([], Except.error "Insufficient balance") := by
  constructor <;> simp [createInvestment, createInvestmentLocal, h]

/-- C5 witness: a user with balance 1000 requesting 2000. -/
theorem createInvestment_insufficient_funds_witness :
    createInvestment (some richUser) "plan-1" 2000 10 0 "inv-1" =
      ([], Except.error "Insufficient balance") ∧
    createInvestmentLocal (some richUser) "plan-1" 2000 10 0 "inv-1" =
      ([], Except.error "Insufficient balance") :=
  createInvestment_insufficient_funds richUser "plan-1" 2000 10 0 "inv-1"
    (by decide)

/-- C3: for an `active` investment and any `now` at or past `endDate`
(the boundary included — the source compares with `now >= endDate`), one
accrual step yields the terminal settled state with
`currentValue = returnAmount` and one credit of `returnAmount` to the
owner: unconditionally in the `credited` variant (`part_000` lines
316–331), and in the Supabase variant (lines 111–127) with the owner as the
ambient user — which that variant's pass guarantees, since it only
processes rows fetched by the current user's id. -/
theorem growth_step_settles_at_maturity (user : Option String) (now : ℚ)
    (inv : Investment) (hA : inv.status = "active") (hM : inv.endDate ≤ now) :
    calculateInvestmentGrowthStepCredited user now inv =
      ({ inv with status := "credited", currentValue := inv.returnAmount },
        [Effect.creditBalance inv.userId inv.returnAmount]) ∧
    calculateInvestmentGrowthStep (some inv.userId) now inv =
      ({ inv with status := "completed", currentValue := inv.returnAmount },
        [Effect.creditBalance inv.userId inv.returnAmount,
         Effect.updateStatusValue inv.id "completed" inv.returnAmount]) := by
  constructor
  · unfold calculateInvestmentGrowthStepCredited
    rw [if_pos hA, if_pos hM, if_pos (by rw [hA]; decide)]
    cases user with
    | none => rfl
    | some uid =>
        by_cases h : inv.userId = uid
        · simp [h]
        · simp [h]
  · unfold calculateInvestmentGrowthStep
    rw [if_pos hA, if_pos ⟨hM, hA⟩]
    simp

/-- C3 witness: `principal = 100`, `durationDays = 10`, at
`now = start + 10 days` exactly: settled, `currentValue = 200`, one credit
of `200`. -/
theorem growth_step_settles_at_maturity_witness :
    calculateInvestmentGrowthStepCredited (some "u1") 864000000 sampleInvestment =
      ({ sampleInvestment with status := "credited", currentValue := 200 },
        [Effect.creditBalance "u1" 200]) ∧
    calculateInvestmentGrowthStep (some "u1") 864000000 sampleInvestment =
      ({ sampleInvestment with status := "completed", currentValue := 200 },
        [Effect.creditBalance "u1" 200,
         Effect.updateStatusValue "inv-1" "completed" 200]) :=
  growth_step_settles_at_maturity (some "u1") 864000000 sampleInvestment
    rfl (by decide)

/-- C6: while `active` and strictly before maturity, the recomputed
`currentValue` is monotone in wall-clock time (all variants share the
growth formula, `part_000` lines 129–137 / 333–341 / 492–500); stated for a
nonnegative stored `dailyReturn`, which holds for every investment the code
creates from a nonnegative principal and positive duration. -/
theorem currentValue_monotone_before_maturity (u1 u2 : Option String)
    (inv : Investment) (t1 t2 : ℚ) (hA : inv.status = "active")
    (hd : 0 ≤ inv.dailyReturn) (_hs : inv.startDate ≤ t1) (h12 : t1 < t2)
    (h2 : t2 < inv.endDate) :
    (calculateInvestmentGrowthStep u1 t1 inv).1.currentValue ≤
      (calculateInvestmentGrowthStep u2 t2 inv).1.currentValue ∧
    (calculateInvestmentGrowthStepLocal u1 t1 inv).1.currentValue ≤
      (calculateInvestmentGrowthStepLocal u2 t2 inv).1.currentValue ∧
    (calculateInvestmentGrowthStepCredited u1 t1 inv).1.currentValue ≤
      (calculateInvestmentGrowthStepCredited u2 t2 inv).1.currentValue := by
  have hm1 : ¬ inv.endDate ≤ t1 := not_le.mpr (lt_trans h12 h2)
  have hm2 : ¬ inv.endDate ≤ t2 := not_le.mpr h2
  have hdiv : (t1 - inv.startDate) / 86400000 ≤ (t2 - inv.startDate) / 86400000 := by
    have hc : (0 : ℚ) < 86400000 := by norm_num
    exact (div_le_div_iff_of_pos_right hc).mpr (by linarith)
  have key : min (inv.amount + (t1 - inv.startDate) / 86400000 * inv.dailyReturn)
        inv.returnAmount ≤
      min (inv.amount + (t2 - inv.startDate) / 86400000 * inv.dailyReturn)
        inv.returnAmount := by
    refine min_le_min ?_ le_rfl
    have := mul_le_mul_of_nonneg_right hdiv hd
    linarith
  refine ⟨?_, ?_, ?_⟩
  · unfold calculateInvestmentGrowthStep
    rw [if_pos hA, if_pos hA, if_neg (fun h => hm1 h.1), if_neg (fun h => hm2 h.1)]
    exact key
  · unfold calculateInvestmentGrowthStepLocal
    rw [if_pos hA, if_pos hA, if_neg (fun h => hm1 h.1), if_neg (fun h => hm2 h.1)]
    exact key
  · unfold calculateInvestmentGrowthStepCredited
    rw [if_pos hA, if_pos hA, if_neg hm1, if_neg hm2]
    exact key

/-- C6 witness: `sampleInvestment` at day 1 versus day 2. -/
theorem currentValue_monotone_before_maturity_witness :
    (calculateInvestmentGrowthStep (some "u1") 86400000 sampleInvestment).1.currentValue ≤
      (calculateInvestmentGrowthStep (some "u1") 172800000 sampleInvestment).1.currentValue ∧
    (calculateInvestmentGrowthStepLocal (some "u1") 86400000 sampleInvestment).1.currentValue ≤
      (calculateInvestmentGrowthStepLocal (some "u1") 172800000 sampleInvestment).1.currentValue ∧
    (calculateInvestmentGrowthStepCredited (some "u1") 86400000 sampleInvestment).1.currentValue ≤
      (calculateInvestmentGrowthStepCredited (some "u1") 172800000 sampleInvestment).1.currentValue :=
  currentValue_monotone_before_maturity (some "u1") (some "u1") sampleInvestment
    86400000 172800000 rfl (by decide) (by decide) (by decide) (by decide)

/-- C7: no accrual step yields `currentValue` above `returnAmount`, for any
timestamp including ones far past maturity: for an `active` record both
branches cap the new value (settlement writes `returnAmount`, the growth
branch takes `min` with it — `part_000` lines 134–137 / 326–330), and a
non-active record is passed through, preserving the bound it already
satisfies. -/
theorem currentValue_le_returnAmount (u : Option String) (now : ℚ)
    (inv : Investment)
    (h : inv.status = "active" ∨ inv.currentValue ≤ inv.returnAmount) :
    (calculateInvestmentGrowthStep u now inv).1.currentValue ≤ inv.returnAmount ∧
    (calculateInvestmentGrowthStepLocal u now inv).1.currentValue ≤ inv.returnAmount ∧
    (calculateInvestmentGrowthStepCredited u now inv).1.currentValue ≤
      inv.returnAmount := by
  by_cases hA : inv.status = "active"
  · by_cases hM : inv.endDate ≤ now
    · refine ⟨?_, ?_, ?_⟩
      · unfold calculateInvestmentGrowthStep
        rw [if_pos hA, if_pos ⟨hM, hA⟩]
      · unfold calculateInvestmentGrowthStepLocal
        rw [if_pos hA, if_pos ⟨hM, hA⟩]
      · unfold calculateInvestmentGrowthStepCredited
        rw [if_pos hA, if_pos hM, if_pos (by rw [hA]; decide)]
    · refine ⟨?_, ?_, ?_⟩
      · unfold calculateInvestmentGrowthStep
        rw [if_pos hA, if_neg (fun hc => hM hc.1)]
        exact min_le_right _ _
      · unfold calculateInvestmentGrowthStepLocal
        rw [if_pos hA, if_neg (fun hc => hM hc.1)]
        exact min_le_right _ _
      · unfold calculateInvestmentGrowthStepCredited
        rw [if_pos hA, if_neg hM]
        exact min_le_right _ _
  · have hv : inv.currentValue ≤ inv.returnAmount := h.resolve_left hA
    unfold calculateInvestmentGrowthStep calculateInvestmentGrowthStepLocal
      calculateInvestmentGrowthStepCredited
    rw [if_neg hA]
    exact ⟨hv, by rw [if_neg hA]; exact hv, by rw [if_neg hA]; exact hv⟩

/-- C7 witness: `sampleInvestment` a thousand days past maturity. -/
theorem currentValue_le_returnAmount_witness :
    (calculateInvestmentGrowthStep (some "u1") 86400000000
        sampleInvestment).1.currentValue ≤ sampleInvestment.returnAmount ∧
    (calculateInvestmentGrowthStepLocal (some "u1") 86400000000
        sampleInvestment).1.currentValue ≤ sampleInvestment.returnAmount ∧
    (calculateInvestmentGrowthStepCredited (some "u1") 86400000000
        sampleInvestment).1.currentValue ≤ sampleInvestment.returnAmount :=
  currentValue_le_returnAmount (some "u1") 86400000000 sampleInvestment
    (Or.inl rfl)

/-- C8: a settled (non-`active`) investment is returned unchanged by a
subsequent accrual step of every variant, at any timestamp, with no side
effect — settlement is an idempotent terminal state (`part_000` lines
105/147, 310/345, 478/504). -/
theorem settled_step_noop (u : Option String) (now : ℚ) (inv : Investment)
    (h : inv.status ≠ "active") :
    calculateInvestmentGrowthStep u now inv = (inv, []) ∧
    calculateInvestmentGrowthStepLocal u now inv = (inv, []) ∧
    calculateInvestmentGrowthStepCredited u now inv = (inv, []) := by
  unfold calculateInvestmentGrowthStep calculateInvestmentGrowthStepLocal
    calculateInvestmentGrowthStepCredited
  refine ⟨?_, ?_, ?_⟩ <;> rw [if_neg h]

/-- C8 witness: the settled sample re-invoked five days later is unchanged
and yields no second credit. -/
theorem settled_step_noop_witness :
    calculateInvestmentGrowthStep (some "u1") 1296000000 settledInvestment =
      (settledInvestment, []) ∧
    calculateInvestmentGrowthStepLocal (some "u1") 1296000000 settledInvestment =
      (settledInvestment, []) ∧
    calculateInvestmentGrowthStepCredited (some "u1") 1296000000 settledInvestment =
      (settledInvestment, []) :=
  settled_step_noop (some "u1") 1296000000 settledInvestment (by decide)

lemma stepLocal_mature (u : Option String) (now : ℚ) (inv : Investment)
    (hA : inv.status = "active") (hM : inv.endDate ≤ now) :
    calculateInvestmentGrowthStepLocal u now inv =
      ({ inv with status := "completed", currentValue := inv.returnAmount },
        match u with
        | some uid =>
            if inv.userId = uid then [Effect.creditBalance uid inv.returnAmount]
            else []
        | none => []) := by
  unfold calculateInvestmentGrowthStepLocal
  rw [if_pos hA, if_pos ⟨hM, hA⟩]

lemma stepLocal_growth (u : Option String) (now : ℚ) (inv : Investment)
    (hA : inv.status = "active") (hM : ¬ inv.endDate ≤ now) :
    calculateInvestmentGrowthStepLocal u now inv =
      ({ inv with currentValue := min (inv.amount + (now - inv.startDate) / 86400000 * inv.dailyReturn) inv.returnAmount }, []) := by
  unfold calculateInvestmentGrowthStepLocal
  rw [if_pos hA, if_neg (fun hc => hM hc.1)]

lemma runPassesLocal_cons (inv : Investment) (p : Option String × ℚ)
    (ps : List (Option String × ℚ)) :
    runPassesLocal inv (p :: ps) =
      ((runPassesLocal (calculateInvestmentGrowthStepLocal p.1 p.2 inv).1 ps).1,
        (calculateInvestmentGrowthStepLocal p.1 p.2 inv).2 ++
          (runPassesLocal (calculateInvestmentGrowthStepLocal p.1 p.2 inv).1 ps).2) :=
  rfl

lemma completed_ne_active : ("completed" : String) ≠ "active" := by decide

lemma runPassesLocal_settled (inv : Investment) (h : inv.status ≠ "active") :
    ∀ ps : List (Option String × ℚ), runPassesLocal inv ps = (inv, []) := by
  intro ps
  induction ps with
  | nil => rfl
  | cons p ps ih => simp [runPassesLocal, calculateInvestmentGrowthStepLocal, h, ih]

/-- C1 (amended): over any sequence of variant-3 accrual passes applied to
an `active` investment, at most one credit is ever issued, and only at the
settling (first at-or-past-maturity) pass: that pass emits the single
credit of `returnAmount` to the owner precisely when its ambient user is
the owner; when it runs with nobody or somebody else logged in, the
investment is still marked `completed` and no credit is ever issued
(`part_000` lines 484–490 — the credit call is guarded by
`user && investment.userId === user.id` while the settlement is not). -/
theorem runPasses_credit_characterization (ps : List (Option String × ℚ)) :
    ∀ inv : Investment, inv.status = "active" →
      credits (runPassesLocal inv ps).2 =
        match ps.find? (fun p => decide (inv.endDate ≤ p.2)) with
        | some (some uid, _) =>
            if inv.userId = uid then [(uid, inv.returnAmount)] else []
        | _ => [] := by
  induction ps with
  | nil => intro inv _; rfl
  | cons p ps ih =>
      intro inv hA
      obtain ⟨u, t⟩ := p
      by_cases hM : inv.endDate ≤ t
      · have hrest := runPassesLocal_settled
          { inv with status := "completed", currentValue := inv.returnAmount }
          completed_ne_active ps
        simp only [runPassesLocal_cons, stepLocal_mature u t inv hA hM, hrest,
          List.find?_cons, decide_eq_true hM, List.append_nil]
        cases u with
        | none => rfl
        | some uid =>
            by_cases huid : inv.userId = uid
            · simp [credits, huid]
            · simp [credits, huid]
      · simp only [runPassesLocal_cons, stepLocal_growth u t inv hA hM,
          List.find?_cons, decide_eq_false hM, List.nil_append]
        exact ih _ hA

/-- C1 counterexample: variant 3 runs its pass even with nobody logged in
(`part_000` lines 463–473 have no user guard), and the pass settles a
matured investment while only crediting when the owner is the ambient user
(lines 484–490).  Two passes — the first at exact maturity with no user,
the second later with the owner — issue zero credits in total, not exactly
one. -/
theorem runPasses_missing_owner_zero_credits :
    credits (runPassesLocal sampleInvestment
        [(none, 864000000), (some "u1", 1728000000)]).2 = [] ∧
    ([] : List (String × ℚ)).length ≠ 1 := by
  constructor
  · have h1 := stepLocal_mature none 864000000 sampleInvestment rfl (by decide)
    have hrest := runPassesLocal_settled { sampleInvestment with status := "completed", currentValue := sampleInvestment.returnAmount } completed_ne_active [(some "u1", 1728000000)]
    simp only [runPassesLocal_cons, h1, hrest, List.append_nil]
    rfl
  · decide

/-- C1 witness: when the settling pass does run with the owner logged in,
exactly one credit of `returnAmount` is issued across the whole sequence,
here over a pass at maturity followed by one long after it. -/
theorem runPasses_credit_characterization_witness :
    credits (runPassesLocal sampleInvestment
        [(some "u1", 864000000), (some "u1", 1728000000)]).2 = [("u1", 200)] := by
  rw [runPasses_credit_characterization
      [(some "u1", 864000000), (some "u1", 1728000000)] sampleInvestment rfl]
  decide

/-- C9: nothing serializes two overlapping Supabase-variant accrual passes
(`part_000` lines 86–97: an hourly `setInterval` around an async pass), and
a pass observing a stale `active` snapshot at its maturity instant credits
the owner unconditionally before its store write, which is
`update ... eq('id', ...)` with no `state = 'active'` condition (lines
111–124).  Two passes over the same stale snapshot therefore put two
credits of `200` into the ledger, not exactly one. -/
theorem concurrent_passes_double_credit :
    credits ((calculateInvestmentGrowthStep (some "u1") 864000000
          sampleInvestment).2 ++
        (calculateInvestmentGrowthStep (some "u1") 864000000
          sampleInvestment).2) = [("u1", 200), ("u1", 200)] ∧
    (credits ((calculateInvestmentGrowthStep (some "u1") 864000000
          sampleInvestment).2 ++
        (calculateInvestmentGrowthStep (some "u1") 864000000
          sampleInvestment).2)).length ≠ 1 := by
  constructor <;> decide

/-- C10: with both the referrer and the referred user present in the list,
`addReferralCommission` returns the list with every record whose id is not
the referrer's unchanged (the `else` branch of the map) and the referrer's
record extended by the 20% commission `a * 0.2`: balance up by exactly the
commission, `referralBonus` up by exactly the commission, and exactly one
referral entry for the referred user appended; with either id absent it
throws and, being pure on the list, changes no record
(`src/services/referralService.ts` lines 5–50). -/
theorem addReferralCommission_spec (users : List User)
    (referrerId userId : String) (a : ℚ) :
    (∀ r nu : User, users.find? (fun u => u.id == referrerId) = some r →
      users.find? (fun u => u.id == userId) = some nu →
      addReferralCommission users referrerId a userId =
        Except.ok (users.map fun u =>
          if u.id == referrerId then
            { u with
                referrals := some (r.referrals.getD [] ++
                  [{ id := userId, name := some nu.name,
                     commission := a * (2 / 10) }])
                referralBonus := some (r.referralBonus.getD 0 + a * (2 / 10))
                balance := u.balance + a * (2 / 10) }
          else u)) ∧
    (users.find? (fun u => u.id == referrerId) = none →
      addReferralCommission users referrerId a userId =
        Except.error "Referrer not found") ∧
    (∀ r : User, users.find? (fun u => u.id == referrerId) = some r →
      users.find? (fun u => u.id == userId) = none →
      addReferralCommission users referrerId a userId =
        Except.error "User not found") := by
  refine ⟨?_, ?_, ?_⟩
  · intro r nu h1 h2
    unfold addReferralCommission
    rw [h1, h2]
  · intro h1
    unfold addReferralCommission
    rw [h1]
  · intro r h1 h2
    unfold addReferralCommission
    rw [h1, h2]

/-- C10 witness: the seeded admin (id "1") referring the seeded test user
(id "2") on a deposit of 100, and the referrer-absent error on a list
without id "1". -/
theorem addReferralCommission_spec_witness :
    addReferralCommission [mockAdmin, mockTestUser] "1" 100 "2" =
      Except.ok ([mockAdmin, mockTestUser].map fun u =>
        if u.id == "1" then
          { u with
              referrals := some (mockAdmin.referrals.getD [] ++
                [{ id := "2", name := some mockTestUser.name,
                   commission := 100 * (2 / 10) }])
              referralBonus := some (mockAdmin.referralBonus.getD 0 +
                100 * (2 / 10))
              balance := u.balance + 100 * (2 / 10) }
        else u) ∧
    addReferralCommission [mockTestUser] "1" 100 "2" =
      Except.error "Referrer not found" := by
  constructor
  · exact (addReferralCommission_spec [mockAdmin, mockTestUser] "1" "2" 100).1
      mockAdmin mockTestUser rfl rfl
  · exact (addReferralCommission_spec [mockTestUser] "1" "2" 100).2.1 rfl

end InvestTrack
